import Mathlib

/-!
# Verification of the financial calculator module (`calculadora.py`)

Shallow embedding of `CalculadoraFinanceira` and the free function
`calcular_inflacao_acumulada` over exact rational arithmetic, together with
theorems settling the spec claims.

Modelling conventions:
* Python floats are idealised as `ℚ` (exact real arithmetic); the spec itself
  notes that a decimal/fixed-point numeric type may be substituted without
  changing the contract.
* The Python builtin `round(x, p)` rounds to the nearest multiple of `10^(-p)`
  with ties going to the even choice (round half to even); this is `roundTo`.
* Raising `ValueError` or `ZeroDivisionError` is modelled by `Except CalcError`.
* `self.precisao` is the explicit first argument `precisao : ℕ` of each method.
-/

/- Batteries marks the `Rat` field operations `@[irreducible]`, which blocks
kernel evaluation of concrete rational arithmetic by `decide`; restore the
default reducibility so that concrete schedules can be computed in proofs. -/
set_option allowUnsafeReducibility true in
attribute [semireducible] Rat.mul Rat.inv Rat.add Rat.sub Rat.ofScientific

/-- The two kinds of runtime error the module can raise: `ValueError` from the
validation in `calcular_parcela`, and `ZeroDivisionError` from arithmetic. -/
inductive CalcError where
  | valueError : CalcError
  | zeroDivision : CalcError
deriving DecidableEq

deriving instance DecidableEq for Except

/-- Model of the Python builtin `round` on an exact value: nearest integer,
ties to even.
Computed on the numerator and denominator so that the kernel can evaluate it:
`f = ⌊x⌋` and the fractional part `x - f` compares to `1/2` exactly as
`2 * (num - f * den)` compares to `den`. -/
def roundHalfEven (x : ℚ) : ℤ :=
  let f := Int.fdiv x.num (x.den : ℤ)
  let t := 2 * (x.num - f * (x.den : ℤ))
  if t < (x.den : ℤ) then f
  else if (x.den : ℤ) < t then f + 1
  else if f % 2 = 0 then f else f + 1

/-- Model of the Python builtin `round(x, p)`: round to `p` decimal places,
ties to even. -/
def roundTo (p : ℕ) (x : ℚ) : ℚ :=
  ((roundHalfEven (x * 10 ^ p) : ℤ) : ℚ) / 10 ^ p

/-- Embedding of `CalculadoraFinanceira.juros_compostos`: `montante = principal * (1 + taxa)
** periodos`, rounded.  Python raises `ZeroDivisionError` exactly when the base
`1 + taxa` is zero and the exponent is negative (`0.0 ** n` with `n < 0`). -/
def juros_compostos (precisao : ℕ) (principal taxa : ℚ) (periodos : ℤ) :
    Except CalcError ℚ :=
  if taxa = -1 ∧ periodos < 0 then .error .zeroDivision
  else .ok (roundTo precisao (principal * (1 + taxa) ^ periodos))

/-- The unrounded Price-system installment expression from
`CalculadoraFinanceira.calcular_parcela`. -/
def parcelaExata (valor_total taxa_mensal : ℚ) (num_parcelas : ℤ) : ℚ :=
  valor_total *
    ((taxa_mensal * (1 + taxa_mensal) ^ num_parcelas) /
      ((1 + taxa_mensal) ^ num_parcelas - 1))

/-- Embedding of `CalculadoraFinanceira.calcular_parcela`: validates `taxa_mensal > 0` and
`num_parcelas > 0` (raising `ValueError` otherwise), then returns the rounded
Price installment. -/
def calcular_parcela (precisao : ℕ) (valor_total taxa_mensal : ℚ)
    (num_parcelas : ℤ) : Except CalcError ℚ :=
  if taxa_mensal ≤ 0 then .error .valueError
  else if num_parcelas ≤ 0 then .error .valueError
  else .ok (roundTo precisao (parcelaExata valor_total taxa_mensal num_parcelas))

/-- One row of the amortization table: the dict
`{"parcela", "valor_parcela", "juros", "amortizacao", "saldo_devedor"}`. -/
structure LinhaAmortizacao where
  parcela : ℕ
  valor_parcela : ℚ
  juros : ℚ
  amortizacao : ℚ
  saldo_devedor : ℚ
deriving DecidableEq

/-- The loop body of `CalculadoraFinanceira.tabela_amortizacao`: starting at
row number `i` with unrounded running balance `saldo`, produce `count` more
rows.  Mirrors the Python `for i in range(1, num_parcelas + 1)` loop. -/
def tabelaAux (precisao : ℕ) (taxa_mensal parcela_valor : ℚ)
    (saldo : ℚ) (i : ℕ) : (count : ℕ) → List LinhaAmortizacao
  | 0 => []
  | count + 1 =>
    let juros := saldo * taxa_mensal
    let amortizacao := parcela_valor - juros
    let saldo2 := saldo - amortizacao
    { parcela := i
      valor_parcela := roundTo precisao parcela_valor
      juros := roundTo precisao juros
      amortizacao := roundTo precisao amortizacao
      saldo_devedor := roundTo precisao (max 0 saldo2) } ::
      tabelaAux precisao taxa_mensal parcela_valor saldo2 (i + 1) count

/-- Embedding of `CalculadoraFinanceira.tabela_amortizacao`: calls `calcular_parcela` once
(hence propagates its `ValueError`), then iterates the Price schedule keeping
the running balance unrounded. -/
def tabela_amortizacao (precisao : ℕ) (valor_total taxa_mensal : ℚ)
    (num_parcelas : ℤ) : Except CalcError (List LinhaAmortizacao) :=
  match calcular_parcela precisao valor_total taxa_mensal num_parcelas with
  | .error e => .error e
  | .ok parcela_valor =>
    .ok (tabelaAux precisao taxa_mensal parcela_valor valor_total 1
      num_parcelas.toNat)

/-- Embedding of `CalculadoraFinanceira.roi`: percentage gain over the initial
investment.
Python raises `ZeroDivisionError` exactly when `investimento_inicial = 0`. -/
def roi (precisao : ℕ) (investimento_inicial retorno_final : ℚ) :
    Except CalcError ℚ :=
  if investimento_inicial = 0 then .error .zeroDivision
  else .ok (roundTo precisao
    ((retorno_final - investimento_inicial) / investimento_inicial * 100))

/-- The free function `calcular_inflacao_acumulada`: folds the accumulator
`acumulado *= (1 + taxa / 100)` over the list and rounds the final percentage
to two decimal places (hard-coded, independent of any calculator). -/
def calcular_inflacao_acumulada (taxas_mensais : List ℚ) : ℚ :=
  roundTo 2
    ((taxas_mensais.foldl (fun acumulado taxa => acumulado * (1 + taxa / 100)) 1
      - 1) * 100)

/-- Observation helper: the sum of the (rounded) `amortizacao` fields of a
table result, `0` if the call raised. -/
def somaAmortizacao (r : Except CalcError (List LinhaAmortizacao)) : ℚ :=
  match r with
  | .error _ => 0
  | .ok tabela => (tabela.map LinhaAmortizacao.amortizacao).sum

/-- Observation helper: the `saldo_devedor` field of the last row of a table
result, `0` if the call raised or the table is empty. -/
def ultimaLinhaSaldo (r : Except CalcError (List LinhaAmortizacao)) : ℚ :=
  match r with
  | .error _ => 0
  | .ok tabela => (tabela.getLastD ⟨0, 0, 0, 0, 0⟩).saldo_devedor

/-- Spec description of the running balance: `saldo_0 = total` and
`saldo_(i+1) = saldo_i - (parcela - saldo_i * taxa)`, never rounded. -/
def saldoSpec (taxa parcela valor_total : ℚ) : ℕ → ℚ
  | 0 => valor_total
  | i + 1 =>
    saldoSpec taxa parcela valor_total i -
      (parcela - saldoSpec taxa parcela valor_total i * taxa)

/-- Spec description of row `i` (0-indexed; the stored row number is
`i + 1`): all four monetary fields independently rounded, the stored balance
floored at zero, computed from the unrounded running balance `saldoSpec`. -/
def linhaSpec (precisao : ℕ) (taxa parcela valor_total : ℚ) (i : ℕ) :
    LinhaAmortizacao :=
  { parcela := i + 1
    valor_parcela := roundTo precisao parcela
    juros := roundTo precisao (saldoSpec taxa parcela valor_total i * taxa)
    amortizacao :=
      roundTo precisao (parcela - saldoSpec taxa parcela valor_total i * taxa)
    saldo_devedor :=
      roundTo precisao (max 0 (saldoSpec taxa parcela valor_total (i + 1))) }

/-- Modelled from the spec: the round-half-up rule the spec ascribes to all
monetary outputs (`⌊x * 10^p + 1/2⌋ / 10^p`), to be compared with the
actual `roundTo` of the code. -/
def roundHalfUpSpec (p : ℕ) (x : ℚ) : ℚ :=
  ((⌊x * 10 ^ p + 1 / 2⌋ : ℤ) : ℚ) / 10 ^ p

/-! ## Properties of the rounding function -/

lemma roundHalfEven_fdiv_eq_floor (x : ℚ) :
    Int.fdiv x.num (x.den : ℤ) = ⌊x⌋ := by
  rw [Rat.floor_def]
  exact Int.fdiv_eq_ediv _ (by positivity)

lemma roundHalfEven_den_cast_pos (x : ℚ) : (0 : ℚ) < (x.den : ℚ) := by
  exact_mod_cast x.den_pos

lemma roundHalfEven_num_cast (x : ℚ) : (x.num : ℚ) = x * (x.den : ℚ) := by
  have hd : (x.den : ℚ) ≠ 0 := ne_of_gt (roundHalfEven_den_cast_pos x)
  rw [eq_comm, ← eq_div_iff hd]
  exact (Rat.num_div_den x).symm

lemma roundHalfEven_t_cast (x : ℚ) :
    ((2 * (x.num - ⌊x⌋ * (x.den : ℤ)) : ℤ) : ℚ)
      = 2 * (x.den : ℚ) * (x - (⌊x⌋ : ℚ)) := by
  push_cast
  rw [roundHalfEven_num_cast x]
  ring

/-- Form of `roundHalfEven` through the floor and the fractional part. -/
lemma roundHalfEven_eq_floor_form (x : ℚ) :
    roundHalfEven x =
      if x - (⌊x⌋ : ℚ) < 1 / 2 then ⌊x⌋
      else if 1 / 2 < x - (⌊x⌋ : ℚ) then ⌊x⌋ + 1
      else if ⌊x⌋ % 2 = 0 then ⌊x⌋ else ⌊x⌋ + 1 := by
  have hd : (0 : ℚ) < (x.den : ℚ) := roundHalfEven_den_cast_pos x
  have key := roundHalfEven_t_cast x
  have h1 : (2 * (x.num - ⌊x⌋ * (x.den : ℤ)) < (x.den : ℤ))
      ↔ (x - (⌊x⌋ : ℚ) < 1 / 2) := by
    constructor
    · intro h
      have h' : ((2 * (x.num - ⌊x⌋ * (x.den : ℤ)) : ℤ) : ℚ)
          < (((x.den : ℤ) : ℤ) : ℚ) := by exact_mod_cast h
      rw [key] at h'
      push_cast at h'
      nlinarith
    · intro h
      have h' : ((2 * (x.num - ⌊x⌋ * (x.den : ℤ)) : ℤ) : ℚ)
          < (((x.den : ℤ) : ℤ) : ℚ) := by
        rw [key]
        push_cast
        nlinarith
      exact_mod_cast h'
  have h2 : ((x.den : ℤ) < 2 * (x.num - ⌊x⌋ * (x.den : ℤ)))
      ↔ (1 / 2 < x - (⌊x⌋ : ℚ)) := by
    constructor
    · intro h
      have h' : (((x.den : ℤ) : ℤ) : ℚ)
          < ((2 * (x.num - ⌊x⌋ * (x.den : ℤ)) : ℤ) : ℚ) := by exact_mod_cast h
      rw [key] at h'
      push_cast at h'
      nlinarith
    · intro h
      have h' : (((x.den : ℤ) : ℤ) : ℚ)
          < ((2 * (x.num - ⌊x⌋ * (x.den : ℤ)) : ℤ) : ℚ) := by
        rw [key]
        push_cast
        nlinarith
      exact_mod_cast h'
  unfold roundHalfEven
  rw [roundHalfEven_fdiv_eq_floor x]
  simp only [h1, h2]

/-- The rounded value is within half a unit of the input. -/
lemma abs_roundHalfEven_sub (x : ℚ) : |((roundHalfEven x : ℤ) : ℚ) - x| ≤ 1 / 2 := by
  have hfl : (⌊x⌋ : ℚ) ≤ x := Int.floor_le x
  have hfu : x < (⌊x⌋ : ℚ) + 1 := Int.lt_floor_add_one x
  rw [roundHalfEven_eq_floor_form x]
  by_cases hc1 : x - (⌊x⌋ : ℚ) < 1 / 2
  · rw [if_pos hc1, abs_le]
    constructor <;> linarith
  · rw [if_neg hc1]
    by_cases hc2 : 1 / 2 < x - (⌊x⌋ : ℚ)
    · rw [if_pos hc2, abs_le]
      push_cast
      constructor <;> linarith
    · rw [if_neg hc2]
      by_cases hc3 : ⌊x⌋ % 2 = 0
      · rw [if_pos hc3, abs_le]
        constructor <;> linarith
      · rw [if_neg hc3, abs_le]
        push_cast
        constructor <;> linarith

/-- On an exact tie the rounded value is even (round half to even). -/
lemma roundHalfEven_tie_even (x : ℚ) (h : x - (⌊x⌋ : ℚ) = 1 / 2) :
    roundHalfEven x % 2 = 0 := by
  rw [roundHalfEven_eq_floor_form x]
  rw [if_neg (by rw [h]; exact lt_irrefl _), if_neg (by rw [h]; exact lt_irrefl _)]
  by_cases hc : ⌊x⌋ % 2 = 0
  · rw [if_pos hc]; exact hc
  · rw [if_neg hc]
    omega

lemma roundTo_sub_eq (p : ℕ) (x : ℚ) :
    roundTo p x - x
      = (((roundHalfEven (x * 10 ^ p) : ℤ) : ℚ) - x * 10 ^ p) / 10 ^ p := by
  have hp : ((10 : ℚ) ^ p) ≠ 0 := by positivity
  unfold roundTo
  field_simp
  ring

/-- Rounding to `p` decimal places moves the value by at most `10^(-p) / 2`. -/
lemma abs_roundTo_sub (p : ℕ) (x : ℚ) :
    |roundTo p x - x| ≤ 1 / (2 * 10 ^ p) := by
  have hp : (0 : ℚ) < 10 ^ p := by positivity
  rw [roundTo_sub_eq p x, abs_div, abs_of_pos hp, div_le_iff₀ hp]
  calc |((roundHalfEven (x * 10 ^ p) : ℤ) : ℚ) - x * 10 ^ p| ≤ 1 / 2 :=
        abs_roundHalfEven_sub (x * 10 ^ p)
    _ = 1 / (2 * 10 ^ p) * 10 ^ p := by field_simp

lemma roundTo_zero (p : ℕ) : roundTo p 0 = 0 := by
  have : roundHalfEven 0 = 0 := by decide
  unfold roundTo
  rw [zero_mul]
  rw [this]
  simp

/-- Scaled back up, `roundTo` returns an integer. -/
lemma roundTo_mul_pow_int (p : ℕ) (x : ℚ) :
    roundTo p x * 10 ^ p = ((roundHalfEven (x * 10 ^ p) : ℤ) : ℚ) := by
  have hp : ((10 : ℚ) ^ p) ≠ 0 := by positivity
  unfold roundTo
  field_simp

/-- Rounding yields an integer multiple of `10^(-p)` within half a unit. -/
lemma roundTo_nearest_multiple (p : ℕ) (x : ℚ) :
    ∃ m : ℤ, roundTo p x = (m : ℚ) / 10 ^ p
      ∧ |(m : ℚ) / 10 ^ p - x| ≤ 1 / (2 * 10 ^ p) := by
  refine ⟨roundHalfEven (x * 10 ^ p), rfl, ?_⟩
  have h := abs_roundTo_sub p x
  have hr : roundTo p x = ((roundHalfEven (x * 10 ^ p) : ℤ) : ℚ) / 10 ^ p := rfl
  rwa [hr] at h

/-- Away from exact ties, the round-half-to-even of the code and the
round-half-up rule of the spec agree. -/
lemma roundTo_eq_roundHalfUpSpec (p : ℕ) (x : ℚ)
    (h : x * 10 ^ p - (⌊x * 10 ^ p⌋ : ℚ) ≠ 1 / 2) :
    roundTo p x = roundHalfUpSpec p x := by
  have key : roundHalfEven (x * 10 ^ p) = ⌊x * 10 ^ p + 1 / 2⌋ := by
    have hfl := Int.floor_le (x * 10 ^ p)
    have hfu := Int.lt_floor_add_one (x * 10 ^ p)
    rw [roundHalfEven_eq_floor_form]
    rcases lt_trichotomy (x * 10 ^ p - (⌊x * 10 ^ p⌋ : ℚ)) (1 / 2) with
      hlt | heq | hgt
    · rw [if_pos hlt]
      symm
      rw [Int.floor_eq_iff]
      refine ⟨by linarith, ?_⟩
      linarith
    · exact absurd heq h
    · rw [if_neg (by linarith), if_pos hgt]
      symm
      rw [Int.floor_eq_iff]
      constructor
      · push_cast
        linarith
      · push_cast
        linarith
  unfold roundTo roundHalfUpSpec
  rw [key]

/-! ## The amortization loop against the spec recurrence -/

lemma saldoSpec_succ (t P total : ℚ) (k : ℕ) :
    saldoSpec t P total (k + 1)
      = saldoSpec t P total k - (P - saldoSpec t P total k * t) := rfl

lemma tabelaAux_eq_map (p : ℕ) (t P total : ℚ) :
    ∀ (count k : ℕ),
      tabelaAux p t P (saldoSpec t P total k) (k + 1) count
        = (List.range count).map (fun j => linhaSpec p t P total (k + j)) := by
  intro count
  induction count with
  | zero =>
    intro k
    simp [tabelaAux]
  | succ m ih =>
    intro k
    have hs : saldoSpec t P total k - (P - saldoSpec t P total k * t)
        = saldoSpec t P total (k + 1) := rfl
    have hhead : (⟨k + 1, roundTo p P,
        roundTo p (saldoSpec t P total k * t),
        roundTo p (P - saldoSpec t P total k * t),
        roundTo p (max 0 (saldoSpec t P total (k + 1)))⟩ :
          LinhaAmortizacao) = linhaSpec p t P total k := rfl
    calc tabelaAux p t P (saldoSpec t P total k) (k + 1) (m + 1)
        = linhaSpec p t P total k ::
            tabelaAux p t P (saldoSpec t P total (k + 1)) (k + 2) m := by
          simp only [tabelaAux]
          rw [hs, hhead]
      _ = linhaSpec p t P total k ::
            (List.range m).map (fun j => linhaSpec p t P total (k + 1 + j)) := by
          rw [ih (k + 1)]
      _ = (List.range (m + 1)).map (fun j => linhaSpec p t P total (k + j)) := by
          rw [List.range_succ_eq_map, List.map_cons, List.map_map]
          refine congr (congrArg List.cons ?_) ?_
          · simp
          · refine List.map_congr_left ?_
            intro j _
            simp only [Function.comp_apply]
            congr 1
            omega

lemma calcular_parcela_ok (p : ℕ) (total t : ℚ) (n : ℤ)
    (h1 : 0 < t) (h2 : 0 < n) :
    calcular_parcela p total t n = .ok (roundTo p (parcelaExata total t n)) := by
  unfold calcular_parcela
  rw [if_neg (not_le.mpr h1), if_neg (not_le.mpr h2)]

lemma tabela_amortizacao_ok (p : ℕ) (total t : ℚ) (n : ℤ)
    (h1 : 0 < t) (h2 : 0 < n) :
    tabela_amortizacao p total t n
      = .ok ((List.range n.toNat).map
          (linhaSpec p t (roundTo p (parcelaExata total t n)) total)) := by
  unfold tabela_amortizacao
  rw [calcular_parcela_ok p total t n h1 h2]
  have h0 : saldoSpec t (roundTo p (parcelaExata total t n)) total 0 = total := rfl
  have htab := tabelaAux_eq_map p t (roundTo p (parcelaExata total t n)) total n.toNat 0
  rw [h0] at htab
  simp only [Nat.zero_add] at htab
  show Except.ok (tabelaAux p t (roundTo p (parcelaExata total t n)) total 1 n.toNat) = _
  rw [htab]

/-- Closed form of the spec recurrence: geometric growth of the balance minus
the annuity factor applied to the fixed installment. -/
lemma saldoSpec_closed (t P total : ℚ) (ht : t ≠ 0) :
    ∀ k : ℕ,
      saldoSpec t P total k = total * (1 + t) ^ k - P * (((1 + t) ^ k - 1) / t)
  | 0 => by simp [saldoSpec]
  | k + 1 => by
    rw [saldoSpec_succ, saldoSpec_closed t P total ht k]
    field_simp
    ring

/-- Telescoping: the unrounded principal portions sum to the drop in the
unrounded balance. -/
lemma sum_amort_unrounded (t P total : ℚ) :
    ∀ n : ℕ,
      ((List.range n).map (fun i => P - saldoSpec t P total i * t)).sum
        = total - saldoSpec t P total n
  | 0 => by simp [saldoSpec]
  | n + 1 => by
    rw [List.range_succ, List.map_append, List.sum_append,
      sum_amort_unrounded t P total n, saldoSpec_succ]
    simp
    ring

lemma abs_sum_roundTo_sub (p : ℕ) (l : List ℚ) :
    |(l.map (roundTo p)).sum - l.sum| ≤ l.length * (1 / (2 * 10 ^ p)) := by
  induction l with
  | nil => simp
  | cons a l ih =>
    simp only [List.map_cons, List.sum_cons, List.length_cons]
    have h := abs_roundTo_sub p a
    have habs : |roundTo p a + (l.map (roundTo p)).sum - (a + l.sum)|
        ≤ |roundTo p a - a| + |(l.map (roundTo p)).sum - l.sum| := by
      have : roundTo p a + (l.map (roundTo p)).sum - (a + l.sum)
          = (roundTo p a - a) + ((l.map (roundTo p)).sum - l.sum) := by ring
      rw [this]
      exact abs_add _ _
    have hlen : ((l.length + 1 : ℕ) : ℚ) = (l.length : ℚ) + 1 := by push_cast; ring
    rw [hlen]
    have hnn : (0 : ℚ) ≤ 1 / (2 * 10 ^ p) := by positivity
    nlinarith [ih, h, habs]

lemma getLastD_map_range (f : ℕ → LinhaAmortizacao) (m : ℕ)
    (d : LinhaAmortizacao) :
    ((List.range (m + 1)).map f).getLastD d = f m := by
  rw [List.range_succ, List.map_append]
  simp

/-! ## Per-operation evaluation lemmas -/

lemma juros_compostos_ok (p : ℕ) (prin r : ℚ) (k : ℤ)
    (h : ¬(r = -1 ∧ k < 0)) :
    juros_compostos p prin r k = .ok (roundTo p (prin * (1 + r) ^ k)) := by
  unfold juros_compostos
  rw [if_neg h]

lemma juros_compostos_zero_periodos (p : ℕ) (prin r : ℚ) :
    juros_compostos p prin r 0 = .ok (roundTo p prin) := by
  unfold juros_compostos
  rw [if_neg (by simp)]
  rw [zpow_zero, mul_one]

lemma roi_ok (p : ℕ) (inv ret : ℚ) (h : inv ≠ 0) :
    roi p inv ret = .ok (roundTo p ((ret - inv) / inv * 100)) := by
  unfold roi
  rw [if_neg h]

lemma roi_zero (p : ℕ) (ret : ℚ) : roi p 0 ret = .error .zeroDivision := by
  unfold roi
  rw [if_pos rfl]

lemma inflacao_eq_prod (l : List ℚ) :
    calcular_inflacao_acumulada l
      = roundTo 2 (((l.map (fun taxa => 1 + taxa / 100)).prod - 1) * 100) := by
  unfold calcular_inflacao_acumulada
  congr 2
  have key : ∀ (m : List ℚ) (a : ℚ),
      m.foldl (fun acumulado taxa => acumulado * (1 + taxa / 100)) a
        = a * (m.map (fun taxa => 1 + taxa / 100)).prod := by
    intro m
    induction m with
    | nil => intro a; simp
    | cons x xs ih =>
      intro a
      simp only [List.foldl_cons, List.map_cons, List.prod_cons, ih]
      ring
  rw [key l 1, one_mul]

/-! ## Claim theorems -/

/-- C1: the method `calcular_parcela` raises the validation error (`ValueError`) iff
`taxa_mensal ≤ 0` or `num_parcelas ≤ 0`, in which case no result is returned
(the result is `Except.error`, never `Except.ok`); `tabela_amortizacao`
propagates exactly the same validation failure, and no other operation of the
module ever raises the validation error. -/
theorem C1_validacao (p : ℕ) (total t : ℚ) (n : ℤ) :
    (calcular_parcela p total t n = .error .valueError ↔ t ≤ 0 ∨ n ≤ 0)
    ∧ (tabela_amortizacao p total t n = .error .valueError ↔ t ≤ 0 ∨ n ≤ 0)
    ∧ juros_compostos p total t n ≠ .error .valueError
    ∧ roi p total t ≠ .error .valueError := by
  refine ⟨?_, ?_, ?_, ?_⟩
  · by_cases h1 : t ≤ 0
    · simp [calcular_parcela, h1]
    · by_cases h2 : n ≤ 0 <;> simp [calcular_parcela, h1, h2]
  · by_cases h1 : t ≤ 0
    · simp [tabela_amortizacao, calcular_parcela, h1]
    · by_cases h2 : n ≤ 0 <;>
        simp [tabela_amortizacao, calcular_parcela, h1, h2]
  · by_cases h : t = -1 ∧ n < 0 <;> simp [juros_compostos, h]
  · by_cases h : total = 0 <;> simp [roi, h]

theorem C1_validacao_witness :
    (calcular_parcela 2 50000 (15/1000) 48 = .error .valueError
        ↔ (15/1000 : ℚ) ≤ 0 ∨ (48 : ℤ) ≤ 0)
    ∧ (tabela_amortizacao 2 50000 (15/1000) 48 = .error .valueError
        ↔ (15/1000 : ℚ) ≤ 0 ∨ (48 : ℤ) ≤ 0)
    ∧ juros_compostos 2 50000 (15/1000) 48 ≠ .error .valueError
    ∧ roi 2 50000 (15/1000) ≠ .error .valueError :=
  C1_validacao 2 50000 (15/1000) 48

/-- C5: for `taxa_mensal > 0` and `num_parcelas > 0`, the method `calcular_parcela`
returns the Price fixed-installment formula
`total * (t * (1+t)^n) / ((1+t)^n - 1)` rounded to `precisao` places; the
witness instantiates the reference scenario `(50000, 0.015, 48)`. -/
theorem C5_parcela_formula (p : ℕ) (total t : ℚ) (n : ℤ)
    (h1 : 0 < t) (h2 : 0 < n) :
    calcular_parcela p total t n
      = .ok (roundTo p (total * ((t * (1 + t) ^ n) / ((1 + t) ^ n - 1)))) :=
  calcular_parcela_ok p total t n h1 h2

theorem C5_parcela_formula_witness :
    0 < (15/1000 : ℚ) ∧ 0 < (48 : ℤ) ∧
      calcular_parcela 2 50000 (15/1000) 48
        = .ok (roundTo 2 (50000 *
            (((15/1000) * (1 + 15/1000) ^ (48 : ℤ)) /
              ((1 + 15/1000) ^ (48 : ℤ) - 1)))) :=
  ⟨by norm_num, by norm_num,
    C5_parcela_formula 2 50000 (15/1000) 48 (by norm_num) (by norm_num)⟩

/-- C6 (corrected): the method `juros_compostos` returns
`principal * (1 + taxa) ^ periodos` rounded, supports zero and negative
periods, and `juros_compostos(1000, 0.05, 12) = 1795.86` at precision 2; but
it is NOT error-free on all inputs: when `taxa = -1` and `periodos < 0` it
raises the arithmetic error (see the counterexample), so the formula holds
exactly on the complement of that case. -/
theorem C6_juros_formula (p : ℕ) (prin r : ℚ) (k : ℤ)
    (h : ¬(r = -1 ∧ k < 0)) :
    juros_compostos p prin r k = .ok (roundTo p (prin * (1 + r) ^ k))
    ∧ juros_compostos p prin r 0 = .ok (roundTo p prin)
    ∧ juros_compostos 2 1000 (1/20) 12 = .ok (179586/100) :=
  ⟨juros_compostos_ok p prin r k h,
   juros_compostos_zero_periodos p prin r,
   by decide⟩

theorem C6_juros_formula_witness :
    ¬((1/20 : ℚ) = -1 ∧ (12 : ℤ) < 0) ∧
      (juros_compostos 2 1000 (1/20) 12
          = .ok (roundTo 2 (1000 * (1 + 1/20) ^ (12 : ℤ)))
       ∧ juros_compostos 2 1000 (1/20) 0 = .ok (roundTo 2 1000)
       ∧ juros_compostos 2 1000 (1/20) 12 = .ok (179586/100)) :=
  ⟨by norm_num, C6_juros_formula 2 1000 (1/20) 12 (by norm_num)⟩

/-- C6 counterexample: at `principal = 1000`, `taxa = -1`, `periodos = -1`
the code raises the arithmetic error instead of returning a value, refuting
the claim that `juros_compostos` raises no error for every rate. -/
theorem C6_counterexample :
    juros_compostos 2 1000 (-1) (-1) = .error .zeroDivision
    ∧ juros_compostos 2 1000 (-1) (-1)
        ≠ .ok (roundTo 2 (1000 * (1 + (-1)) ^ (-1 : ℤ))) := by
  refine ⟨by decide, by decide⟩

/-- C10: with negative `periodos`, `juros_compostos` fails with the
division-by-zero error exactly at `taxa = -1` (where it computes
`0 ** periodos` with a negative exponent) and returns the rounded formula
value for every other rate. -/
theorem C10_juros_negativo (p : ℕ) (prin r : ℚ) (k : ℤ) (hk : k < 0) :
    juros_compostos p prin (-1) k = .error .zeroDivision
    ∧ (r ≠ -1 → juros_compostos p prin r k
        = .ok (roundTo p (prin * (1 + r) ^ k))) := by
  constructor
  · unfold juros_compostos
    rw [if_pos ⟨rfl, hk⟩]
  · intro hr
    exact juros_compostos_ok p prin r k (by tauto)

theorem C10_juros_negativo_witness :
    (-3 : ℤ) < 0 ∧ ((1/2 : ℚ) ≠ -1) ∧
      (juros_compostos 2 1000 (-1) (-3) = .error .zeroDivision
       ∧ juros_compostos 2 1000 (1/2) (-3)
          = .ok (roundTo 2 (1000 * (1 + 1/2) ^ (-3 : ℤ)))) :=
  ⟨by norm_num, by norm_num,
    (C10_juros_negativo 2 1000 (1/2) (-3) (by norm_num)).1,
    (C10_juros_negativo 2 1000 (1/2) (-3) (by norm_num)).2 (by norm_num)⟩

/-- C7: the free function `calcular_inflacao_acumulada` multiplies `(1 + taxa/100)` over the
list in order, returns `(product - 1) * 100` rounded to exactly two decimal
places, yields `0` on the empty list, and `2.01` on the reference scenario
`[0.5, 0.3, 0.8, 0.4]`. -/
theorem C7_inflacao (l : List ℚ) :
    calcular_inflacao_acumulada l
      = roundTo 2 (((l.map (fun taxa => 1 + taxa / 100)).prod - 1) * 100)
    ∧ calcular_inflacao_acumulada [] = 0
    ∧ calcular_inflacao_acumulada [1/2, 3/10, 4/5, 2/5] = 201/100 :=
  ⟨inflacao_eq_prod l, by decide, by decide⟩

/-- C9: the method `roi` returns `((retorno - investimento) / investimento) * 100`
rounded to `precisao` whenever the initial investment is nonzero, returns
`50` on the reference scenario `(5000, 7500)`, and fails with the
division-by-zero error exactly when the initial investment is zero. -/
theorem C9_roi (p : ℕ) (inv ret : ℚ) (h : inv ≠ 0) :
    roi p inv ret = .ok (roundTo p ((ret - inv) / inv * 100))
    ∧ roi p 0 ret = .error .zeroDivision
    ∧ roi 2 5000 7500 = .ok 50 :=
  ⟨roi_ok p inv ret h, roi_zero p ret, by decide⟩

theorem C9_roi_witness :
    (5000 : ℚ) ≠ 0 ∧
      (roi 2 5000 7500 = .ok (roundTo 2 ((7500 - 5000) / 5000 * 100))
       ∧ roi 2 0 7500 = .error .zeroDivision
       ∧ roi 2 5000 7500 = .ok 50) :=
  ⟨by norm_num, C9_roi 2 5000 7500 (by norm_num)⟩

/-- C3: for valid inputs, the table is computed with the fixed installment
returned by `calcular_parcela` and, row by row, equals the spec recurrence:
row `i` (1-based) stores the four monetary fields independently rounded from
the unrounded running balance `saldoSpec` (with `saldoSpec 0 = total`,
`juros_i = saldo_(i-1) * taxa`, `amortizacao_i = parcela - juros_i`,
`saldo_i = saldo_(i-1) - amortizacao_i`), the stored balance being
`max 0 saldo_i` rounded, while the balance carried to the next iteration
stays unrounded. -/
theorem C3_tabela_recorrencia (p : ℕ) (total t : ℚ) (n : ℤ)
    (h1 : 0 < t) (h2 : 0 < n) :
    calcular_parcela p total t n = .ok (roundTo p (parcelaExata total t n))
    ∧ tabela_amortizacao p total t n
        = .ok ((List.range n.toNat).map
            (linhaSpec p t (roundTo p (parcelaExata total t n)) total)) :=
  ⟨calcular_parcela_ok p total t n h1 h2,
   tabela_amortizacao_ok p total t n h1 h2⟩

theorem C3_tabela_recorrencia_witness :
    0 < (1 : ℚ) ∧ 0 < (3 : ℤ) ∧
      (calcular_parcela 2 100 1 3 = .ok (roundTo 2 (parcelaExata 100 1 3))
       ∧ tabela_amortizacao 2 100 1 3
          = .ok ((List.range (3 : ℤ).toNat).map
              (linhaSpec 2 1 (roundTo 2 (parcelaExata 100 1 3)) 100))) :=
  ⟨by norm_num, by norm_num,
    C3_tabela_recorrencia 2 100 1 3 (by norm_num) (by norm_num)⟩

/-- C8: for valid inputs the table has exactly `num_parcelas` rows and the
stored row numbers (`parcela` field) are `1, 2, ..., num_parcelas` with no
gaps. -/
theorem C8_numeracao (p : ℕ) (total t : ℚ) (n : ℤ)
    (h1 : 0 < t) (h2 : 0 < n) :
    tabela_amortizacao p total t n
      = .ok ((List.range n.toNat).map
          (linhaSpec p t (roundTo p (parcelaExata total t n)) total))
    ∧ ((List.range n.toNat).map
        (linhaSpec p t (roundTo p (parcelaExata total t n)) total)).length
        = n.toNat
    ∧ (n.toNat : ℤ) = n
    ∧ ((List.range n.toNat).map
        (linhaSpec p t (roundTo p (parcelaExata total t n)) total)).map
        LinhaAmortizacao.parcela = List.range' 1 n.toNat := by
  refine ⟨tabela_amortizacao_ok p total t n h1 h2, by simp,
    Int.toNat_of_nonneg (le_of_lt h2), ?_⟩
  rw [List.map_map]
  have hcomp : (LinhaAmortizacao.parcela ∘
      linhaSpec p t (roundTo p (parcelaExata total t n)) total)
        = (fun i => i + 1) := rfl
  rw [hcomp, List.range'_eq_map_range]
  apply List.map_congr_left
  intro j _
  omega

theorem C8_numeracao_witness :
    0 < (1 : ℚ) ∧ 0 < (3 : ℤ) ∧
      (tabela_amortizacao 2 100 1 3
          = .ok ((List.range (3 : ℤ).toNat).map
              (linhaSpec 2 1 (roundTo 2 (parcelaExata 100 1 3)) 100))
       ∧ ((List.range (3 : ℤ).toNat).map
            (linhaSpec 2 1 (roundTo 2 (parcelaExata 100 1 3)) 100)).length
            = (3 : ℤ).toNat
       ∧ (((3 : ℤ).toNat : ℤ) = 3)
       ∧ ((List.range (3 : ℤ).toNat).map
            (linhaSpec 2 1 (roundTo 2 (parcelaExata 100 1 3)) 100)).map
            LinhaAmortizacao.parcela = List.range' 1 (3 : ℤ).toNat) :=
  ⟨by norm_num, by norm_num, C8_numeracao 2 100 1 3 (by norm_num) (by norm_num)⟩

/-- C4 counterexample: the module rounds with the Python builtin `round`, which sends
the exact tie `0.125` to `0.12` (ties to even), while the claimed
round-half-up rule would produce `0.13`; witnessed on the returned value of
`juros_compostos(0.125, 0, 0)` at precision 2. -/
theorem C4_counterexample :
    juros_compostos 2 (1/8) 0 0 = .ok (roundTo 2 (1/8))
    ∧ roundTo 2 (1/8) = 12/100
    ∧ roundHalfUpSpec 2 (1/8) = 13/100
    ∧ roundTo 2 (1/8) ≠ roundHalfUpSpec 2 (1/8) :=
  ⟨by decide, by decide, by decide, by decide⟩

/-- C4 (corrected): every monetary value returned by the operations named in
the claim — `juros_compostos`, `calcular_parcela`, the four row fields of
`tabela_amortizacao`, `roi` — is `roundTo precisao` of its unrounded defining
expression, rounding applied to the returned value only and never to
intermediate arithmetic; the rounding rule is round half to even (the Python
builtin `round`), not round half up: `roundTo` produces the integer multiple
of `10^(-precisao)` nearest its input, agrees with the round-half-up rule of
the spec whenever the scaled input is not an exact tie, and on an exact tie
chooses the even scaled integer. -/
theorem C4_arredondamento (p : ℕ) (x y z prin r inv ret total t : ℚ)
    (k n : ℤ)
    (h1 : ¬(r = -1 ∧ k < 0)) (h2 : inv ≠ 0) (h3 : 0 < t) (h4 : 0 < n)
    (h5 : x * 10 ^ p - (⌊x * 10 ^ p⌋ : ℚ) ≠ 1 / 2)
    (h6 : y * 10 ^ p - (⌊y * 10 ^ p⌋ : ℚ) = 1 / 2) :
    (∃ m : ℤ, roundTo p z = (m : ℚ) / 10 ^ p
      ∧ |(m : ℚ) / 10 ^ p - z| ≤ 1 / (2 * 10 ^ p))
    ∧ roundTo p x = roundHalfUpSpec p x
    ∧ roundHalfEven (y * 10 ^ p) % 2 = 0
    ∧ juros_compostos p prin r k = .ok (roundTo p (prin * (1 + r) ^ k))
    ∧ calcular_parcela p total t n
        = .ok (roundTo p (parcelaExata total t n))
    ∧ tabela_amortizacao p total t n
        = .ok ((List.range n.toNat).map
            (linhaSpec p t (roundTo p (parcelaExata total t n)) total))
    ∧ roi p inv ret = .ok (roundTo p ((ret - inv) / inv * 100)) :=
  ⟨roundTo_nearest_multiple p z,
   roundTo_eq_roundHalfUpSpec p x h5,
   roundHalfEven_tie_even (y * 10 ^ p) h6,
   juros_compostos_ok p prin r k h1,
   calcular_parcela_ok p total t n h3 h4,
   tabela_amortizacao_ok p total t n h3 h4,
   roi_ok p inv ret h2⟩

theorem C4_arredondamento_witness :
    ¬((1/20 : ℚ) = -1 ∧ (12 : ℤ) < 0) ∧ ((5000 : ℚ) ≠ 0)
    ∧ (0 < (1 : ℚ)) ∧ (0 < (3 : ℤ))
    ∧ ((7/3 : ℚ) * 10 ^ 2 - (⌊(7/3 : ℚ) * 10 ^ 2⌋ : ℚ) ≠ 1 / 2)
    ∧ ((1/8 : ℚ) * 10 ^ 2 - (⌊(1/8 : ℚ) * 10 ^ 2⌋ : ℚ) = 1 / 2)
    ∧ ((∃ m : ℤ, roundTo 2 (41/8) = (m : ℚ) / 10 ^ 2
          ∧ |(m : ℚ) / 10 ^ 2 - 41/8| ≤ 1 / (2 * 10 ^ 2))
      ∧ roundTo 2 (7/3) = roundHalfUpSpec 2 (7/3)
      ∧ roundHalfEven ((1/8) * 10 ^ 2) % 2 = 0
      ∧ juros_compostos 2 1000 (1/20) 12
          = .ok (roundTo 2 (1000 * (1 + 1/20) ^ (12 : ℤ)))
      ∧ calcular_parcela 2 100 1 3 = .ok (roundTo 2 (parcelaExata 100 1 3))
      ∧ tabela_amortizacao 2 100 1 3
          = .ok ((List.range (3 : ℤ).toNat).map
              (linhaSpec 2 1 (roundTo 2 (parcelaExata 100 1 3)) 100))
      ∧ roi 2 5000 7500 = .ok (roundTo 2 ((7500 - 5000) / 5000 * 100))) :=
  ⟨by norm_num, by norm_num, by norm_num, by norm_num, by decide, by decide,
    C4_arredondamento 2 (7/3) (1/8) (41/8) 1000 (1/20) 5000 7500 100 1 12 3
      (by norm_num) (by norm_num) (by norm_num) (by norm_num) (by decide)
      (by decide)⟩

set_option maxRecDepth 4000 in
/-- C2 counterexample: at precision 2, `total = 1000000`, `taxa = 1`,
`n = 20` the rounding of the installment is amplified by the annuity factor:
the `saldo_devedor` field of the last row is `3853.75`, not `0`, and the rounded
principal portions sum to `996146.25`, missing `total` by far more than
`n * 10^(-2)`. -/
theorem C2_counterexample :
    ultimaLinhaSaldo (tabela_amortizacao 2 1000000 1 20) = 15415/4
    ∧ (15415/4 : ℚ) ≠ 0
    ∧ somaAmortizacao (tabela_amortizacao 2 1000000 1 20) = 3984585/4
    ∧ ¬(|(3984585/4 : ℚ) - 1000000| ≤ 20 * (1 / 10 ^ 2)) := by
  refine ⟨by decide, by decide, by decide, ?_⟩
  have h : (3984585/4 : ℚ) - 1000000 = -(15415/4) := by norm_num
  rw [h, abs_neg, abs_of_pos (by norm_num)]
  norm_num

/-- C2 (corrected): for valid inputs the rounded principal portions sum to
`total` only up to `n * 10^(-precisao)` PLUS the installment rounding error
amplified by the annuity factor `((1+t)^n - 1) / t`, and the `saldo_devedor`
field of the last row is the rounding of `max 0 B` where
`B = total * (1+t)^n - P * ((1+t)^n - 1)/t` is the final unrounded balance
for the rounded installment `P`; it equals `0` whenever `P` is at least the
exact installment value (in particular whenever the installment was rounded
up), but not in general. -/
theorem C2_saldo_final (p : ℕ) (total t : ℚ) (n : ℤ)
    (h1 : 0 < t) (h2 : 0 < n) :
    |somaAmortizacao (tabela_amortizacao p total t n) - total|
        ≤ (n.toNat : ℚ) * (1 / 10 ^ p)
          + |roundTo p (parcelaExata total t n) - parcelaExata total t n|
            * (((1 + t) ^ n - 1) / t)
    ∧ ultimaLinhaSaldo (tabela_amortizacao p total t n)
        = roundTo p (max 0 (total * (1 + t) ^ n
            - roundTo p (parcelaExata total t n) * (((1 + t) ^ n - 1) / t)))
    ∧ (parcelaExata total t n ≤ roundTo p (parcelaExata total t n) →
        ultimaLinhaSaldo (tabela_amortizacao p total t n) = 0) := by
  have ht0 : t ≠ 0 := ne_of_gt h1
  have hm : (n.toNat : ℤ) = n := Int.toNat_of_nonneg h2.le
  have hmpos : 0 < n.toNat := by omega
  have hpow : (1 + t) ^ n = (1 + t) ^ n.toNat := by
    rw [← zpow_natCast (1 + t) n.toNat, hm]
  have hgt1 : 1 < (1 + t) ^ n.toNat := one_lt_pow₀ (by linarith) (by omega)
  have hden : (1 + t) ^ n - 1 ≠ 0 := by
    rw [hpow]
    exact ne_of_gt (by linarith)
  set P := roundTo p (parcelaExata total t n) with hP
  have hA0 : 0 < ((1 + t) ^ n - 1) / t := by
    apply div_pos _ h1
    rw [hpow]
    linarith
  have hPeA : parcelaExata total t n * (((1 + t) ^ n - 1) / t)
      = total * (1 + t) ^ n := by
    unfold parcelaExata
    field_simp
    ring
  have hsaldo2 : saldoSpec t P total n.toNat
      = total * (1 + t) ^ n - P * (((1 + t) ^ n - 1) / t) := by
    rw [saldoSpec_closed t P total ht0 n.toNat, hpow]
  have hsaldo : saldoSpec t P total n.toNat
      = (parcelaExata total t n - P) * (((1 + t) ^ n - 1) / t) := by
    rw [hsaldo2, ← hPeA]
    ring
  have hsoma : somaAmortizacao (tabela_amortizacao p total t n)
      = (((List.range n.toNat).map
          (fun i => P - saldoSpec t P total i * t)).map (roundTo p)).sum := by
    rw [tabela_amortizacao_ok p total t n h1 h2]
    show (((List.range n.toNat).map (linhaSpec p t P total)).map
        LinhaAmortizacao.amortizacao).sum = _
    rw [List.map_map, List.map_map]
    rfl
  have hsum_un : ((List.range n.toNat).map
      (fun i => P - saldoSpec t P total i * t)).sum
        = total - saldoSpec t P total n.toNat :=
    sum_amort_unrounded t P total n.toNat
  have herr := abs_sum_roundTo_sub p
    ((List.range n.toNat).map (fun i => P - saldoSpec t P total i * t))
  rw [List.length_map, List.length_range, hsum_un] at herr
  have hlast : ultimaLinhaSaldo (tabela_amortizacao p total t n)
      = roundTo p (max 0 (saldoSpec t P total n.toNat)) := by
    obtain ⟨m, hm'⟩ : ∃ m, n.toNat = m + 1 := ⟨n.toNat - 1, by omega⟩
    rw [tabela_amortizacao_ok p total t n h1 h2]
    show (((List.range n.toNat).map (linhaSpec p t P total)).getLastD
        ⟨0, 0, 0, 0, 0⟩).saldo_devedor = _
    rw [hm', getLastD_map_range]
    show roundTo p (max 0 (saldoSpec t P total (m + 1))) = _
    rw [← hm']
  refine ⟨?_, ?_, ?_⟩
  · rw [hsoma]
    have habs : |(((List.range n.toNat).map
        (fun i => P - saldoSpec t P total i * t)).map (roundTo p)).sum - total|
        ≤ |(((List.range n.toNat).map
            (fun i => P - saldoSpec t P total i * t)).map (roundTo p)).sum
          - (total - saldoSpec t P total n.toNat)|
          + |saldoSpec t P total n.toNat| := by
      have hsplit : (((List.range n.toNat).map
          (fun i => P - saldoSpec t P total i * t)).map (roundTo p)).sum - total
          = ((((List.range n.toNat).map
              (fun i => P - saldoSpec t P total i * t)).map (roundTo p)).sum
            - (total - saldoSpec t P total n.toNat))
            + (- saldoSpec t P total n.toNat) := by ring
      rw [hsplit]
      have := abs_add ((((List.range n.toNat).map
          (fun i => P - saldoSpec t P total i * t)).map (roundTo p)).sum
            - (total - saldoSpec t P total n.toNat))
          (- saldoSpec t P total n.toNat)
      rw [abs_neg] at this
      exact this
    have hsal_abs : |saldoSpec t P total n.toNat|
        = |P - parcelaExata total t n| * (((1 + t) ^ n - 1) / t) := by
      rw [hsaldo, abs_mul, abs_of_pos hA0, abs_sub_comm]
    have hhalf : (n.toNat : ℚ) * (1 / (2 * 10 ^ p))
        ≤ (n.toNat : ℚ) * (1 / 10 ^ p) := by
      apply mul_le_mul_of_nonneg_left _ (by positivity)
      apply div_le_div_of_nonneg_left (by norm_num) (by positivity)
      linarith [pow_pos (show (0:ℚ) < 10 by norm_num) p]
    rw [hsal_abs] at habs
    linarith
  · rw [hlast, hsaldo2]
  · intro hPe
    rw [hlast]
    have hnonpos : saldoSpec t P total n.toNat ≤ 0 := by
      rw [hsaldo]
      exact mul_nonpos_of_nonpos_of_nonneg (by linarith) hA0.le
    rw [max_eq_left hnonpos]
    exact roundTo_zero p

theorem C2_saldo_final_witness :
    0 < (1 : ℚ) ∧ 0 < (3 : ℤ) ∧
      (|somaAmortizacao (tabela_amortizacao 2 100 1 3) - 100|
          ≤ ((3 : ℤ).toNat : ℚ) * (1 / 10 ^ 2)
            + |roundTo 2 (parcelaExata 100 1 3) - parcelaExata 100 1 3|
              * (((1 + 1) ^ (3 : ℤ) - 1) / 1)
       ∧ ultimaLinhaSaldo (tabela_amortizacao 2 100 1 3)
          = roundTo 2 (max 0 (100 * (1 + 1) ^ (3 : ℤ)
              - roundTo 2 (parcelaExata 100 1 3) * (((1 + 1) ^ (3 : ℤ) - 1) / 1)))
       ∧ (parcelaExata 100 1 3 ≤ roundTo 2 (parcelaExata 100 1 3) →
          ultimaLinhaSaldo (tabela_amortizacao 2 100 1 3) = 0)) :=
  ⟨by norm_num, by norm_num, C2_saldo_final 2 100 1 3 (by norm_num) (by norm_num)⟩
